import Mathlib

set_option maxRecDepth 100000
set_option maxHeartbeats 4000000

/-!
Shallow embedding of the `crypto-nacl` crate (`src/pkbox.rs` together with the
`secretbox` module and the external primitives it consumes).

Bytes are modelled as `List Nat` (each element intended `< 256`), machine words
as `Nat` reduced with explicit `% 2^w`.  Functions that `assert!` in Rust
return `Option`: `none` models the abort.  `crypto_secretbox_open` returns
`Option (Option (List Nat))`: the outer `none` models an assertion failure,
the inner `none` models the recoverable authentication failure (`Err` in the
Rust `Result`).

The `secretbox` module is declared by `src/lib.rs` but its source file is not
present; it and the external primitives (`curve25519`, `hsalsa20`, the Salsa20
stream, Poly1305, SHA-512/256) are modelled from the specification, which
mandates the exact NaCl constructions for bit compatibility.
-/

/-- Little-endian interpretation of a byte list as a natural number. -/
def leNum : List Nat → Nat
  | [] => 0
  | b :: bs => b % 256 + 256 * leNum bs

/-- Little-endian serialization of `n` into exactly `k` bytes. -/
def natLE : Nat → Nat → List Nat
  | 0, _ => []
  | k + 1, n => n % 256 :: natLE k (n / 256)

theorem natLE_length (k n : Nat) : (natLE k n).length = k := by
  induction k generalizing n with
  | zero => rfl
  | succ k ih => simp [natLE, ih]

/-- Rotate a 32-bit word left by `n` bits (input assumed `< 2^32`). -/
def rotl32 (x n : Nat) : Nat :=
  (x * 2 ^ n + x / 2 ^ (32 - n)) % 4294967296

/-- Salsa20 quarter-round on words `(y0, y1, y2, y3)`. -/
def quarterRound (y0 y1 y2 y3 : Nat) : Nat × Nat × Nat × Nat :=
  let z1 := y1 ^^^ rotl32 ((y0 + y3) % 4294967296) 7
  let z2 := y2 ^^^ rotl32 ((z1 + y0) % 4294967296) 9
  let z3 := y3 ^^^ rotl32 ((z2 + z1) % 4294967296) 13
  let z0 := y0 ^^^ rotl32 ((z3 + z2) % 4294967296) 18
  (z0, z1, z2, z3)

/-- The 16-word Salsa20 state. -/
structure SalsaState where
  x0 : Nat
  x1 : Nat
  x2 : Nat
  x3 : Nat
  x4 : Nat
  x5 : Nat
  x6 : Nat
  x7 : Nat
  x8 : Nat
  x9 : Nat
  x10 : Nat
  x11 : Nat
  x12 : Nat
  x13 : Nat
  x14 : Nat
  x15 : Nat

/-- Salsa20 column round followed by row round. -/
def doubleRound (s : SalsaState) : SalsaState :=
  -- column round
  let (y0, y4, y8, y12) := quarterRound s.x0 s.x4 s.x8 s.x12
  let (y5, y9, y13, y1) := quarterRound s.x5 s.x9 s.x13 s.x1
  let (y10, y14, y2, y6) := quarterRound s.x10 s.x14 s.x2 s.x6
  let (y15, y3, y7, y11) := quarterRound s.x15 s.x3 s.x7 s.x11
  -- row round
  let (z0, z1, z2, z3) := quarterRound y0 y1 y2 y3
  let (z5, z6, z7, z4) := quarterRound y5 y6 y7 y4
  let (z10, z11, z8, z9) := quarterRound y10 y11 y8 y9
  let (z15, z12, z13, z14) := quarterRound y15 y12 y13 y14
  ⟨z0, z1, z2, z3, z4, z5, z6, z7, z8, z9, z10, z11, z12, z13, z14, z15⟩

/-- Iterate `doubleRound` `n` times. -/
def doubleRounds : Nat → SalsaState → SalsaState
  | 0, s => s
  | n + 1, s => doubleRounds n (doubleRound s)

/-- Little-endian 32-bit word from the first four bytes of a list. -/
def leWord (bs : List Nat) : Nat :=
  leNum (bs.take 4)

/-- The Salsa20 input state for a 32-byte key and a 16-byte input block,
with the "expand 32-byte k" diagonal constants. -/
def salsaInput (key inp : List Nat) : SalsaState :=
  ⟨0x61707865,
   leWord key, leWord (key.drop 4), leWord (key.drop 8), leWord (key.drop 12),
   0x3320646e,
   leWord inp, leWord (inp.drop 4), leWord (inp.drop 8), leWord (inp.drop 12),
   0x79622d32,
   leWord (key.drop 16), leWord (key.drop 20), leWord (key.drop 24),
   leWord (key.drop 28),
   0x6b206574⟩

/-- Add two `SalsaState`s word-wise mod `2^32`. -/
def addState (a b : SalsaState) : SalsaState :=
  ⟨(a.x0 + b.x0) % 4294967296, (a.x1 + b.x1) % 4294967296,
   (a.x2 + b.x2) % 4294967296, (a.x3 + b.x3) % 4294967296,
   (a.x4 + b.x4) % 4294967296, (a.x5 + b.x5) % 4294967296,
   (a.x6 + b.x6) % 4294967296, (a.x7 + b.x7) % 4294967296,
   (a.x8 + b.x8) % 4294967296, (a.x9 + b.x9) % 4294967296,
   (a.x10 + b.x10) % 4294967296, (a.x11 + b.x11) % 4294967296,
   (a.x12 + b.x12) % 4294967296, (a.x13 + b.x13) % 4294967296,
   (a.x14 + b.x14) % 4294967296, (a.x15 + b.x15) % 4294967296⟩

/-- Serialize a `SalsaState` as 64 little-endian bytes. -/
def stateBytes (s : SalsaState) : List Nat :=
  natLE 4 s.x0 ++ natLE 4 s.x1 ++ natLE 4 s.x2 ++ natLE 4 s.x3 ++
  natLE 4 s.x4 ++ natLE 4 s.x5 ++ natLE 4 s.x6 ++ natLE 4 s.x7 ++
  natLE 4 s.x8 ++ natLE 4 s.x9 ++ natLE 4 s.x10 ++ natLE 4 s.x11 ++
  natLE 4 s.x12 ++ natLE 4 s.x13 ++ natLE 4 s.x14 ++ natLE 4 s.x15

/-- Modelled from the spec: the Salsa20 keystream block function
(the external `KeystreamPrimitive`): 20 rounds plus the feed-forward
addition, serialized little-endian. -/
def salsa20Block (key inp : List Nat) : List Nat :=
  let s := salsaInput key inp
  stateBytes (addState (doubleRounds 10 s) s)

/-- Modelled from the spec: the HSalsa20 compression/core function used by
`SubkeyDerivation`: 20 rounds with no feed-forward, returning words
`z0, z5, z10, z15, z6, z7, z8, z9` as 32 little-endian bytes. -/
def hsalsa20 (key inp : List Nat) : List Nat :=
  let z := doubleRounds 10 (salsaInput key inp)
  natLE 4 z.x0 ++ natLE 4 z.x5 ++ natLE 4 z.x10 ++ natLE 4 z.x15 ++
  natLE 4 z.x6 ++ natLE 4 z.x7 ++ natLE 4 z.x8 ++ natLE 4 z.x9

theorem salsa20Block_length (key inp : List Nat) :
    (salsa20Block key inp).length = 64 := by
  simp [salsa20Block, stateBytes, natLE_length]

theorem hsalsa20_length (key inp : List Nat) :
    (hsalsa20 key inp).length = 32 := by
  simp [hsalsa20, natLE_length]

/-- Modelled from the spec: `count` consecutive 64-byte Salsa20 keystream
blocks under `key`, with 8-byte inner nonce `n8` and little-endian 64-bit
block counter starting at `ctr`. -/
def salsa20Blocks (key n8 : List Nat) : Nat → Nat → List Nat
  | 0, _ => []
  | count + 1, ctr => salsa20Block key (n8 ++ natLE 8 ctr) ++ salsa20Blocks key n8 count (ctr + 1)

theorem salsa20Blocks_length (key n8 : List Nat) (count ctr : Nat) :
    (salsa20Blocks key n8 count ctr).length = 64 * count := by
  induction count generalizing ctr with
  | zero => rfl
  | succ c ih =>
    simp [salsa20Blocks, salsa20Block_length, ih]
    omega

/-- Modelled from the spec: the first `len` bytes of the XSalsa20 keystream
for a 32-byte key and 24-byte nonce: HSalsa20 derives a subkey from the
first 16 nonce bytes, then the Salsa20 stream runs with the remaining 8
nonce bytes. -/
def xsalsa20Stream (key nonce : List Nat) (len : Nat) : List Nat :=
  (salsa20Blocks (hsalsa20 key (nonce.take 16)) (nonce.drop 16) ((len + 63) / 64) 0).take len

theorem xsalsa20Stream_length (key nonce : List Nat) (len : Nat) :
    (xsalsa20Stream key nonce len).length = len := by
  simp [xsalsa20Stream, salsa20Blocks_length]
  have h := Nat.div_add_mod (len + 63) 64
  have h2 : (len + 63) % 64 < 64 := Nat.mod_lt _ (by omega)
  omega

/-- The Poly1305 prime `2^130 - 5`. -/
def p1305 : Nat := 1361129467683753853853498429727072845819

/-- Modelled from the spec: the Poly1305 accumulation loop over 16-byte
chunks; each chunk is read little-endian with an extra high bit appended,
and folded into the accumulator modulo `2^130 - 5`. -/
def polyBlocks (r : Nat) : Nat → List Nat → Nat
  | acc, b0 :: b1 :: b2 :: b3 :: b4 :: b5 :: b6 :: b7 ::
         b8 :: b9 :: b10 :: b11 :: b12 :: b13 :: b14 :: b15 :: rest =>
    let n := leNum [b0, b1, b2, b3, b4, b5, b6, b7, b8, b9, b10, b11, b12, b13, b14, b15] +
      340282366920938463463374607431768211456
    polyBlocks r ((acc + n) * r % p1305) rest
  | acc, [] => acc
  | acc, chunk =>
    let n := leNum chunk + 2 ^ (8 * chunk.length)
    (acc + n) * r % p1305

/-- Modelled from the spec: the Poly1305 one-time authenticator.  The first
16 key bytes are clamped into the multiplier `r`, the last 16 are the final
pad `s`; the tag is `(acc + s) mod 2^128` serialized little-endian. -/
def poly1305 (key msg : List Nat) : List Nat :=
  let r := leNum (key.take 16) &&& 0x0ffffffc0ffffffc0ffffffc0fffffff
  let s := leNum (key.drop 16)
  natLE 16 ((polyBlocks r 0 msg + s) % 340282366920938463463374607431768211456)

theorem poly1305_length (key msg : List Nat) : (poly1305 key msg).length = 16 := by
  simp [poly1305, natLE_length]

/-- The Curve25519 field prime `2^255 - 19`. -/
def p25519 : Nat := 57896044618658097711785492504343953926634992332820282019728792003956564819949

/-- Field addition modulo `2^255 - 19`. -/
def fadd (a b : Nat) : Nat := (a + b) % p25519

/-- Field subtraction modulo `2^255 - 19` (operands assumed `< p25519`). -/
def fsub (a b : Nat) : Nat := (a + (p25519 - b)) % p25519

/-- Field multiplication modulo `2^255 - 19`. -/
def fmul (a b : Nat) : Nat := a * b % p25519

/-- Fuelled square-and-multiply modular exponentiation mod `2^255 - 19`. -/
def fpowAux : Nat → Nat → Nat → Nat
  | 0, _, _ => 1
  | fuel + 1, b, e =>
    if e = 0 then 1
    else
      let h := fpowAux fuel (b * b % p25519) (e / 2)
      if e % 2 = 1 then b * h % p25519 else h

/-- Field exponentiation mod `2^255 - 19` (exponents below `2^256`). -/
def fpow (b e : Nat) : Nat := fpowAux 256 b e

/-- Modelled from the spec: scalar clamping for Curve25519 — clear the three
low bits, clear bit 255, set bit 254. -/
def clampScalar (sk : List Nat) : Nat :=
  2 ^ 254 + 8 * (leNum sk / 8 % 2 ^ 251)

/-- One Montgomery-ladder step: differential addition and doubling on
projective x-coordinates `(x2, z2)` for `[k]P` and `(x3, z3)` for `[k+1]P`,
with `x1` the base x-coordinate. -/
def ladderStep (x1 x2 z2 x3 z3 : Nat) : Nat × Nat × Nat × Nat :=
  let a := fadd x2 z2
  let aa := fmul a a
  let b := fsub x2 z2
  let bb := fmul b b
  let e := fsub aa bb
  let c := fadd x3 z3
  let d := fsub x3 z3
  let da := fmul d a
  let cb := fmul c b
  let x3' := fmul (fadd da cb) (fadd da cb)
  let z3' := fmul x1 (fmul (fsub da cb) (fsub da cb))
  let x2' := fmul aa bb
  let z2' := fmul e (fadd aa (fmul 121665 e))
  (x2', z2', x3', z3')

/-- The Montgomery ladder over bits `t-1 .. 0` of scalar `k`; when the
current bit is set the roles of `(x2, z2)` and `(x3, z3)` are exchanged
around the step (the conditional-swap formulation of the ladder). -/
def ladderLoop (x1 k : Nat) : Nat → Nat × Nat × Nat × Nat → Nat × Nat × Nat × Nat
  | 0, st => st
  | t + 1, st =>
    let (x2, z2, x3, z3) := st
    let st' :=
      if k / 2 ^ t % 2 = 1 then
        let (a, b, c, d) := ladderStep x1 x3 z3 x2 z2
        (c, d, a, b)
      else
        ladderStep x1 x2 z2 x3 z3
    ladderLoop x1 k t st'

/-- Modelled from the spec: the Curve25519 scalar-multiplication primitive
(`scalar_mult(scalar, point)`): clamp the 32-byte scalar, read the 32-byte
point as a little-endian x-coordinate with the top bit ignored, run the
Montgomery ladder, and serialize `x2 / z2` as 32 little-endian bytes. -/
def curve25519 (sk pk : List Nat) : List Nat :=
  let k := clampScalar sk
  let x1 := leNum pk % 2 ^ 255 % p25519
  let (x2, z2, _, _) := ladderLoop x1 k 255 (1, 0, x1, 1)
  natLE 32 (fmul x2 (fpow z2 (p25519 - 2)))

/-- Modelled from the spec: base-point scalar multiplication
(`scalar_mult_base`); the Curve25519 base point has x-coordinate 9. -/
def curve25519_base (sk : List Nat) : List Nat :=
  curve25519 sk (9 :: List.replicate 31 0)

theorem curve25519_length (sk pk : List Nat) : (curve25519 sk pk).length = 32 := by
  simp only [curve25519]
  cases ladderLoop (leNum pk % 2 ^ 255 % p25519) (clampScalar sk) 255
      (1, 0, leNum pk % 2 ^ 255 % p25519, 1) with
  | mk x2 rest => simp [natLE_length]

/-! ## The `secretbox` module (modelled from the spec)

`src/lib.rs` declares `mod secretbox` but its source is not in the tree; the
definitions below follow the specification's algorithm (§4.1), which is the
exact NaCl XSalsa20-Poly1305 secretbox construction. -/

/-- Modelled from the spec: the encrypted payload of a secretbox — the
message XORed with the keystream from offset 32 onward. -/
def secretboxPayload (msg nonce key : List Nat) : List Nat :=
  List.zipWith Nat.xor msg ((xsalsa20Stream key nonce (32 + msg.length)).drop 32)

/-- Modelled from the spec: the 16-byte authentication tag of a secretbox —
Poly1305 over the encrypted payload, keyed by the first 32 keystream
bytes. -/
def secretboxTag (msg nonce key : List Nat) : List Nat :=
  poly1305 ((xsalsa20Stream key nonce (32 + msg.length)).take 32) (secretboxPayload msg nonce key)

/-- Modelled from the spec: `crypto_secretbox` — encrypt-and-authenticate
`msg` under a 32-byte `key` and 24-byte `nonce`.  A keystream of
`32 + len(msg)` bytes is generated; its first 32 bytes become the one-time
Poly1305 subkey, the rest is XORed with the message; the output is the
16-byte tag followed by the encrypted payload.  `none` models the fatal
assertion on a wrong key or nonce size. -/
def crypto_secretbox (msg nonce key : List Nat) : Option (List Nat) :=
  if nonce.length = 24 ∧ key.length = 32 then
    some (secretboxTag msg nonce key ++ secretboxPayload msg nonce key)
  else none

/-- Modelled from the spec: `crypto_secretbox_open` — authenticate and
decrypt.  A ciphertext shorter than 16 bytes is rejected before any
keystream generation; otherwise the tag is recomputed over the payload and
compared with the leading 16 bytes, and only on a match is the payload
XORed back to plaintext.  Outer `none` models the fatal size assertion,
inner `none` the recoverable `AuthFailure`. -/
def crypto_secretbox_open (ct nonce key : List Nat) : Option (Option (List Nat)) :=
  if nonce.length = 24 ∧ key.length = 32 then
    if ct.length < 16 then some none
    else if poly1305 ((xsalsa20Stream key nonce (32 + (ct.length - 16))).take 32)
        (ct.drop 16) = ct.take 16 then
      some (some (List.zipWith Nat.xor (ct.drop 16)
        ((xsalsa20Stream key nonce (32 + (ct.length - 16))).drop 32)))
    else some none
  else none

/-! ## SHA-512/256 (external hash, modelled from the spec) -/

/-- Big-endian interpretation of a byte list. -/
def beNum (bs : List Nat) : Nat :=
  bs.foldl (fun acc b => acc * 256 + b % 256) 0

/-- Big-endian serialization of `n` into exactly `k` bytes. -/
def natBE : Nat → Nat → List Nat
  | 0, _ => []
  | k + 1, n => natBE k (n / 256) ++ [n % 256]

theorem natBE_length (k n : Nat) : (natBE k n).length = k := by
  induction k generalizing n with
  | zero => rfl
  | succ k ih => simp [natBE, ih]

/-- Rotate a 64-bit word right by `n` bits (input assumed `< 2^64`). -/
def rotr64 (x n : Nat) : Nat :=
  (x / 2 ^ n + x * 2 ^ (64 - n)) % 18446744073709551616

/-- Bitwise complement of a 64-bit word. -/
def not64 (x : Nat) : Nat := x ^^^ 18446744073709551615

/-- The SHA-512 round constants (decimal). -/
def shaK : List Nat := [
  4794697086780616226, 8158064640168781261, 13096744586834688815,
  16840607885511220156, 4131703408338449720, 6480981068601479193,
  10538285296894168987, 12329834152419229976, 15566598209576043074,
  1334009975649890238, 2608012711638119052, 6128411473006802146,
  8268148722764581231, 9286055187155687089, 11230858885718282805,
  13951009754708518548, 16472876342353939154, 17275323862435702243,
  1135362057144423861, 2597628984639134821, 3308224258029322869,
  5365058923640841347, 6679025012923562964, 8573033837759648693,
  10970295158949994411, 12119686244451234320, 12683024718118986047,
  13788192230050041572, 14330467153632333762, 15395433587784984357,
  489312712824947311, 1452737877330783856, 2861767655752347644,
  3322285676063803686, 5560940570517711597, 5996557281743188959,
  7280758554555802590, 8532644243296465576, 9350256976987008742,
  10552545826968843579, 11727347734174303076, 12113106623233404929,
  14000437183269869457, 14369950271660146224, 15101387698204529176,
  15463397548674623760, 17586052441742319658, 1182934255886127544,
  1847814050463011016, 2177327727835720531, 2830643537854262169,
  3796741975233480872, 4115178125766777443, 5681478168544905931,
  6601373596472566643, 7507060721942968483, 8399075790359081724,
  8693463985226723168, 9568029438360202098, 10144078919501101548,
  10430055236837252648, 11840083180663258601, 13761210420658862357,
  14299343276471374635, 14566680578165727644, 15097957966210449927,
  16922976911328602910, 17689382322260857208, 500013540394364858,
  748580250866718886, 1242879168328830382, 1977374033974150939,
  2944078676154940804, 3659926193048069267, 4368137639120453308,
  4836135668995329356, 5532061633213252278, 6448918945643986474,
  6902733635092675308, 7801388544844847127 ]

/-- The eight-word SHA-512 chaining state. -/
structure ShaState where
  a : Nat
  b : Nat
  c : Nat
  d : Nat
  e : Nat
  f : Nat
  g : Nat
  h : Nat

/-- The SHA-512/256 initial chaining value (FIPS 180-4). -/
def shaIV : ShaState :=
  ⟨2463787394917988140, 11481187982095705282, 2563595384472711505,
   10824532655140301501, 10819967247969091555, 13717434660681038226,
   3098927326965381290, 1060366662362279074⟩

/-- Extend the 16-word message block to the 80-word SHA-512 schedule. -/
def shaSchedule : Nat → List Nat → List Nat
  | 0, w => w
  | n + 1, w =>
    let l := w.length
    let s0 :=
      let x := w.getD (l - 15) 0
      rotr64 x 1 ^^^ rotr64 x 8 ^^^ x / 2 ^ 7
    let s1 :=
      let x := w.getD (l - 2) 0
      rotr64 x 19 ^^^ rotr64 x 61 ^^^ x / 2 ^ 6
    shaSchedule n (w ++ [(w.getD (l - 16) 0 + s0 + w.getD (l - 7) 0 + s1) % 18446744073709551616])

/-- One SHA-512 round with round constant `k` and schedule word `w`. -/
def shaRound (st : ShaState) (k w : Nat) : ShaState :=
  let s1 := rotr64 st.e 14 ^^^ rotr64 st.e 18 ^^^ rotr64 st.e 41
  let ch := (st.e &&& st.f) ^^^ (not64 st.e &&& st.g)
  let t1 := (st.h + s1 + ch + k + w) % 18446744073709551616
  let s0 := rotr64 st.a 28 ^^^ rotr64 st.a 34 ^^^ rotr64 st.a 39
  let maj := (st.a &&& st.b) ^^^ (st.a &&& st.c) ^^^ (st.b &&& st.c)
  let t2 := (s0 + maj) % 18446744073709551616
  ⟨(t1 + t2) % 18446744073709551616, st.a, st.b, st.c,
   (st.d + t1) % 18446744073709551616, st.e, st.f, st.g⟩

/-- Compress one 128-byte block into the chaining state. -/
def shaCompress (st : ShaState) (block : List Nat) : ShaState :=
  let w0 := (List.range 16).map (fun i => beNum ((block.drop (8 * i)).take 8))
  let w := shaSchedule 64 w0
  let e := (List.zip shaK w).foldl (fun s kw => shaRound s kw.1 kw.2) st
  ⟨(st.a + e.a) % 18446744073709551616, (st.b + e.b) % 18446744073709551616,
   (st.c + e.c) % 18446744073709551616, (st.d + e.d) % 18446744073709551616,
   (st.e + e.e) % 18446744073709551616, (st.f + e.f) % 18446744073709551616,
   (st.g + e.g) % 18446744073709551616, (st.h + e.h) % 18446744073709551616⟩

/-- Fuelled loop over the 128-byte blocks of the padded message. -/
def shaBlocks : Nat → ShaState → List Nat → ShaState
  | 0, st, _ => st
  | n + 1, st, data => shaBlocks n (shaCompress st (data.take 128)) (data.drop 128)

/-- Modelled from the spec: the external hash function truncated to 32
bytes (SHA-512/256): pad with `0x80`, zeros and the 16-byte big-endian bit
length, compress each 128-byte block, output the first four chaining words
big-endian. -/
def sha512_256 (msg : List Nat) : List Nat :=
  let padded := msg ++ 0x80 :: List.replicate ((128 - (msg.length + 17) % 128) % 128) 0 ++
    natBE 16 (8 * msg.length)
  let st := shaBlocks (padded.length / 128) shaIV padded
  natBE 8 st.a ++ natBE 8 st.b ++ natBE 8 st.c ++ natBE 8 st.d

/-! ## `src/pkbox.rs` -/

/-- `crypto_box_PUBLICKEYBYTES` from `src/pkbox.rs`. -/
abbrev crypto_box_PUBLICKEYBYTES : Nat := 32

/-- `crypto_box_SECRETKEYBYTES` from `src/pkbox.rs`. -/
abbrev crypto_box_SECRETKEYBYTES : Nat := 32

/-- `crypto_box_NONCEBYTES` from `src/pkbox.rs`. -/
abbrev crypto_box_NONCEBYTES : Nat := 24

/-- `crypto_box_OVERHEAD` from `src/pkbox.rs`. -/
abbrev crypto_box_OVERHEAD : Nat := 16

/-- `ZERO_HSALSA_NONCE` from `src/pkbox.rs`: the fixed all-zero 16-byte
HSalsa20 nonce. -/
def ZERO_HSALSA_NONCE : List Nat := List.replicate 16 0

/-- `crypto_box_keypair` from `src/pkbox.rs`.  The ambient `OsRng` is made
explicit as the `entropy` argument (the bytes `fill_bytes` writes into the
32-byte buffer); the buffer contents are replaced by their SHA-512/256
digest and the public key is the base-point multiple of that digest.
Returns the final secret-key buffer contents together with the public key;
`none` models the assertion on a wrong buffer size. -/
def crypto_box_keypair (entropy sk : List Nat) : Option (List Nat × List Nat) :=
  if sk.length = crypto_box_PUBLICKEYBYTES then
    let sk2 := sha512_256 (entropy.take 32)
    some (sk2, curve25519_base sk2)
  else none

/-- `crypto_box_beforenm` from `src/pkbox.rs`: Curve25519 scalar product of
`sk` and `pk`, then HSalsa20 with the all-zero nonce; `none` models the two
size assertions. -/
def crypto_box_beforenm (pk sk : List Nat) : Option (List Nat) :=
  if pk.length = crypto_box_PUBLICKEYBYTES ∧ sk.length = crypto_box_SECRETKEYBYTES then
    some (hsalsa20 (curve25519 sk pk) ZERO_HSALSA_NONCE)
  else none

/-- `crypto_box` from `src/pkbox.rs`: assert the nonce size, precompute the
session key, delegate to `crypto_secretbox`. -/
def crypto_box (msg nonce pk sk : List Nat) : Option (List Nat) :=
  if nonce.length = crypto_box_NONCEBYTES then
    (crypto_box_beforenm pk sk).bind (fun key => crypto_secretbox msg nonce key)
  else none

/-- `crypto_box_open` from `src/pkbox.rs`: assert the nonce size,
precompute the session key, delegate to `crypto_secretbox_open`. -/
def crypto_box_open (ct nonce pk sk : List Nat) : Option (Option (List Nat)) :=
  if nonce.length = crypto_box_NONCEBYTES then
    (crypto_box_beforenm pk sk).bind (fun key => crypto_secretbox_open ct nonce key)
  else none

/-! ## Supporting lemmas -/

theorem zipWith_xor_xor (m s : List Nat) (h : m.length ≤ s.length) :
    List.zipWith Nat.xor (List.zipWith Nat.xor m s) s = m := by
  induction m generalizing s with
  | nil => simp
  | cons a m ih =>
    cases s with
    | nil => simp at h
    | cons b s =>
      simp only [List.zipWith_cons_cons]
      rw [ih s (by simpa using h)]
      exact congrArg (· :: m) (Nat.xor_cancel_right b a)

theorem secretboxPayload_length (msg nonce key : List Nat) :
    (secretboxPayload msg nonce key).length = msg.length := by
  simp [secretboxPayload, List.length_zipWith, List.length_drop, xsalsa20Stream_length]

theorem secretboxTag_length (msg nonce key : List Nat) :
    (secretboxTag msg nonce key).length = 16 := by
  simp [secretboxTag, poly1305_length]

theorem crypto_secretbox_some (msg nonce key ct : List Nat)
    (h : crypto_secretbox msg nonce key = some ct) :
    nonce.length = 24 ∧ key.length = 32 ∧
      ct = secretboxTag msg nonce key ++ secretboxPayload msg nonce key := by
  unfold crypto_secretbox at h
  by_cases hc : nonce.length = 24 ∧ key.length = 32
  · exact ⟨hc.1, hc.2, (Option.some.inj (by rwa [if_pos hc] at h)).symm⟩
  · rw [if_neg hc] at h
    exact absurd h (by simp)

theorem crypto_secretbox_length (msg nonce key ct : List Nat)
    (h : crypto_secretbox msg nonce key = some ct) :
    ct.length = msg.length + 16 := by
  obtain ⟨-, -, hct⟩ := crypto_secretbox_some msg nonce key ct h
  subst hct
  simp [secretboxTag_length, secretboxPayload_length]
  omega

/-- Decrypting an honestly produced secretbox under the same key and nonce
recovers the plaintext. -/
theorem secretbox_open_encrypt (msg nonce key ct : List Nat)
    (h : crypto_secretbox msg nonce key = some ct) :
    crypto_secretbox_open ct nonce key = some (some msg) := by
  obtain ⟨h24, h32, hct⟩ := crypto_secretbox_some msg nonce key ct h
  subst hct
  have hT : (secretboxTag msg nonce key).length = 16 := secretboxTag_length ..
  have hP : (secretboxPayload msg nonce key).length = msg.length :=
    secretboxPayload_length ..
  have hlen : (secretboxTag msg nonce key ++ secretboxPayload msg nonce key).length =
      16 + msg.length := by simp [hT, hP]
  have hdrop : (secretboxTag msg nonce key ++ secretboxPayload msg nonce key).drop 16 =
      secretboxPayload msg nonce key := by
    rw [← hT]; exact List.drop_left ..
  have htake : (secretboxTag msg nonce key ++ secretboxPayload msg nonce key).take 16 =
      secretboxTag msg nonce key := by
    rw [← hT]; exact List.take_left ..
  unfold crypto_secretbox_open
  rw [if_pos ⟨h24, h32⟩, if_neg (by rw [hlen]; omega)]
  have h16 : (secretboxTag msg nonce key ++ secretboxPayload msg nonce key).length - 16 =
      msg.length := by rw [hlen]; omega
  rw [h16, hdrop, htake,
    if_pos (show poly1305 ((xsalsa20Stream key nonce (32 + msg.length)).take 32)
        (secretboxPayload msg nonce key) = secretboxTag msg nonce key from rfl)]
  have hx : List.zipWith Nat.xor (secretboxPayload msg nonce key)
      ((xsalsa20Stream key nonce (32 + msg.length)).drop 32) = msg := by
    rw [secretboxPayload]
    exact zipWith_xor_xor msg _ (by simp [List.length_drop, xsalsa20Stream_length])
  rw [hx]

theorem crypto_box_beforenm_some (pk sk : List Nat)
    (hpk : pk.length = 32) (hsk : sk.length = 32) :
    crypto_box_beforenm pk sk = some (hsalsa20 (curve25519 sk pk) ZERO_HSALSA_NONCE) := by
  unfold crypto_box_beforenm
  exact if_pos ⟨hpk, hsk⟩

theorem crypto_box_some (msg nonce pk sk ct : List Nat)
    (h : crypto_box msg nonce pk sk = some ct) :
    nonce.length = 24 ∧ ∃ key, crypto_box_beforenm pk sk = some key ∧
      crypto_secretbox msg nonce key = some ct := by
  unfold crypto_box at h
  by_cases h24 : nonce.length = crypto_box_NONCEBYTES
  · rw [if_pos h24] at h
    exact ⟨h24, Option.bind_eq_some.mp h⟩
  · rw [if_neg h24] at h
    exact absurd h (by simp)

theorem secretbox_open_isSome (ct nonce key : List Nat)
    (h24 : nonce.length = 24) (h32 : key.length = 32) :
    (crypto_secretbox_open ct nonce key).isSome := by
  unfold crypto_secretbox_open
  rw [if_pos ⟨h24, h32⟩]
  split
  · rfl
  · split <;> rfl

/-! ## The reference NaCl test vectors (`test_nacl_box_vectors` in `src/pkbox.rs`) -/

/-- Alice's secret key from the NaCl box test vectors. -/
def alicesk : List Nat := [
  0x77, 0x07, 0x6d, 0x0a, 0x73, 0x18, 0xa5, 0x7d,
  0x3c, 0x16, 0xc1, 0x72, 0x51, 0xb2, 0x66, 0x45,
  0xdf, 0x4c, 0x2f, 0x87, 0xeb, 0xc0, 0x99, 0x2a,
  0xb1, 0x77, 0xfb, 0xa5, 0x1d, 0xb9, 0x2c, 0x2a ]

/-- Alice's public key from the NaCl box test vectors. -/
def alicepk : List Nat := [
  0x85, 0x20, 0xf0, 0x09, 0x89, 0x30, 0xa7, 0x54,
  0x74, 0x8b, 0x7d, 0xdc, 0xb4, 0x3e, 0xf7, 0x5a,
  0x0d, 0xbf, 0x3a, 0x0d, 0x26, 0x38, 0x1a, 0xf4,
  0xeb, 0xa4, 0xa9, 0x8e, 0xaa, 0x9b, 0x4e, 0x6a ]

/-- Bob's secret key from the NaCl box test vectors. -/
def bobsk : List Nat := [
  0x5d, 0xab, 0x08, 0x7e, 0x62, 0x4a, 0x8a, 0x4b,
  0x79, 0xe1, 0x7f, 0x8b, 0x83, 0x80, 0x0e, 0xe6,
  0x6f, 0x3b, 0xb1, 0x29, 0x26, 0x18, 0xb6, 0xfd,
  0x1c, 0x2f, 0x8b, 0x27, 0xff, 0x88, 0xe0, 0xeb ]

/-- Bob's public key from the NaCl box test vectors. -/
def bobpk : List Nat := [
  0xde, 0x9e, 0xdb, 0x7d, 0x7b, 0x7d, 0xc1, 0xb4,
  0xd3, 0x5b, 0x61, 0xc2, 0xec, 0xe4, 0x35, 0x37,
  0x3f, 0x83, 0x43, 0xc8, 0x5b, 0x78, 0x67, 0x4d,
  0xad, 0xfc, 0x7e, 0x14, 0x6f, 0x88, 0x2b, 0x4f ]

/-- The 24-byte nonce from the NaCl box test vectors. -/
def vec_nonce : List Nat := [
  0x69, 0x69, 0x6e, 0xe9, 0x55, 0xb6, 0x2b, 0x73,
  0xcd, 0x62, 0xbd, 0xa8, 0x75, 0xfc, 0x73, 0xd6,
  0x82, 0x19, 0xe0, 0x03, 0x6b, 0x7a, 0x0b, 0x37 ]

/-- The 131-byte plaintext from the NaCl box test vectors. -/
def vec_msg : List Nat := [
  0xbe, 0x07, 0x5f, 0xc5, 0x3c, 0x81, 0xf2, 0xd5,
  0xcf, 0x14, 0x13, 0x16, 0xeb, 0xeb, 0x0c, 0x7b,
  0x52, 0x28, 0xc5, 0x2a, 0x4c, 0x62, 0xcb, 0xd4,
  0x4b, 0x66, 0x84, 0x9b, 0x64, 0x24, 0x4f, 0xfc,
  0xe5, 0xec, 0xba, 0xaf, 0x33, 0xbd, 0x75, 0x1a,
  0x1a, 0xc7, 0x28, 0xd4, 0x5e, 0x6c, 0x61, 0x29,
  0x6c, 0xdc, 0x3c, 0x01, 0x23, 0x35, 0x61, 0xf4,
  0x1d, 0xb6, 0x6c, 0xce, 0x31, 0x4a, 0xdb, 0x31,
  0x0e, 0x3b, 0xe8, 0x25, 0x0c, 0x46, 0xf0, 0x6d,
  0xce, 0xea, 0x3a, 0x7f, 0xa1, 0x34, 0x80, 0x57,
  0xe2, 0xf6, 0x55, 0x6a, 0xd6, 0xb1, 0x31, 0x8a,
  0x02, 0x4a, 0x83, 0x8f, 0x21, 0xaf, 0x1f, 0xde,
  0x04, 0x89, 0x77, 0xeb, 0x48, 0xf5, 0x9f, 0xfd,
  0x49, 0x24, 0xca, 0x1c, 0x60, 0x90, 0x2e, 0x52,
  0xf0, 0xa0, 0x89, 0xbc, 0x76, 0x89, 0x70, 0x40,
  0xe0, 0x82, 0xf9, 0x37, 0x76, 0x38, 0x48, 0x64,
  0x5e, 0x07, 0x05 ]

/-- The expected 147-byte ciphertext from the NaCl box test vectors. -/
def vec_box_expected : List Nat := [
  0xf3, 0xff, 0xc7, 0x70, 0x3f, 0x94, 0x00, 0xe5,
  0x2a, 0x7d, 0xfb, 0x4b, 0x3d, 0x33, 0x05, 0xd9,
  0x8e, 0x99, 0x3b, 0x9f, 0x48, 0x68, 0x12, 0x73,
  0xc2, 0x96, 0x50, 0xba, 0x32, 0xfc, 0x76, 0xce,
  0x48, 0x33, 0x2e, 0xa7, 0x16, 0x4d, 0x96, 0xa4,
  0x47, 0x6f, 0xb8, 0xc5, 0x31, 0xa1, 0x18, 0x6a,
  0xc0, 0xdf, 0xc1, 0x7c, 0x98, 0xdc, 0xe8, 0x7b,
  0x4d, 0xa7, 0xf0, 0x11, 0xec, 0x48, 0xc9, 0x72,
  0x71, 0xd2, 0xc2, 0x0f, 0x9b, 0x92, 0x8f, 0xe2,
  0x27, 0x0d, 0x6f, 0xb8, 0x63, 0xd5, 0x17, 0x38,
  0xb4, 0x8e, 0xee, 0xe3, 0x14, 0xa7, 0xcc, 0x8a,
  0xb9, 0x32, 0x16, 0x45, 0x48, 0xe5, 0x26, 0xae,
  0x90, 0x22, 0x43, 0x68, 0x51, 0x7a, 0xcf, 0xea,
  0xbd, 0x6b, 0xb3, 0x73, 0x2b, 0xc0, 0xe9, 0xda,
  0x99, 0x83, 0x2b, 0x61, 0xca, 0x01, 0xb6, 0xde,
  0x56, 0x24, 0x4a, 0x9e, 0x88, 0xd5, 0xf9, 0xb3,
  0x79, 0x73, 0xf6, 0x22, 0xa4, 0x3d, 0x14, 0xa6,
  0x59, 0x9b, 0x1f, 0x65, 0x4c, 0xb4, 0x5a, 0x74,
  0xe3, 0x55, 0xa5 ]

/-! ## Spec-side definitions for the refinement claims -/

/-- The spec's description of box-encrypt (§4.4): compute the session key
with `beforenm`, then delegate to secretbox encryption. -/
def box_encrypt_spec (msg nonce pk sk : List Nat) : Option (List Nat) :=
  (crypto_box_beforenm pk sk).bind (fun key => crypto_secretbox msg nonce key)

/-- The spec's description of box-decrypt (§4.4): compute the session key
with `beforenm`, then delegate to secretbox decryption. -/
def box_decrypt_spec (ct nonce pk sk : List Nat) : Option (Option (List Nat)) :=
  (crypto_box_beforenm pk sk).bind (fun key => crypto_secretbox_open ct nonce key)

/-- The spec's description of the session-key derivation (§4.2, §4.3): the
HSalsa20 compression of the Curve25519 scalar product under a fixed
all-zero 16-byte nonce. -/
def beforenm_spec (pk sk : List Nat) : List Nat :=
  hsalsa20 (curve25519 sk pk) (List.replicate 16 0)

/-! ## Claims -/

/-- Claim C1: decrypting the ciphertext produced by encryption under the
same 24-byte nonce and 32-byte key returns exactly the plaintext, for every
plaintext including the empty one; at the box level, whenever the two sides
derive the same session key (as matching keypairs do),
`crypto_box_open (crypto_box m n pkB skA) n pkA skB` recovers `m`. -/
theorem claim_C1_roundtrip :
    (∀ msg nonce key ct, crypto_secretbox msg nonce key = some ct →
      crypto_secretbox_open ct nonce key = some (some msg)) ∧
    (∀ msg nonce pkA skA pkB skB ct,
      crypto_box_beforenm pkB skA = crypto_box_beforenm pkA skB →
      crypto_box msg nonce pkB skA = some ct →
      crypto_box_open ct nonce pkA skB = some (some msg)) := by
  constructor
  · exact secretbox_open_encrypt
  · intro msg nonce pkA skA pkB skB ct hagree henc
    obtain ⟨h24, key, hk, hsb⟩ := crypto_box_some msg nonce pkB skA ct henc
    rw [hagree] at hk
    unfold crypto_box_open
    rw [if_pos h24, hk, Option.some_bind]
    exact secretbox_open_encrypt msg nonce key ct hsb

/-- Claim C1 witness: the round trip evaluated on the empty message under
all-zero key and nonce, and on the NaCl box test vectors. -/
theorem claim_C1_roundtrip_witness :
    crypto_secretbox_open
        [92, 134, 54, 217, 153, 141, 25, 77, 96, 90, 195, 186, 60, 255, 21, 18]
        (List.replicate 24 0) (List.replicate 32 0) = some (some []) ∧
    crypto_box_open vec_box_expected vec_nonce alicepk bobsk = some (some vec_msg) :=
  ⟨claim_C1_roundtrip.1 [] (List.replicate 24 0) (List.replicate 32 0)
      [92, 134, 54, 217, 153, 141, 25, 77, 96, 90, 195, 186, 60, 255, 21, 18]
      (by decide),
   claim_C1_roundtrip.2 vec_msg vec_nonce alicepk alicesk bobpk bobsk
      vec_box_expected (by decide) (by decide)⟩

/-- Claim C2: on the reference NaCl test vectors, `crypto_box` produces the
published 147-byte ciphertext byte-for-byte, and `crypto_box_open` of that
ciphertext returns the published 131-byte plaintext. -/
theorem claim_C2_known_vectors :
    crypto_box vec_msg vec_nonce bobpk alicesk = some vec_box_expected ∧
    crypto_box_open vec_box_expected vec_nonce alicepk bobsk = some (some vec_msg) := by
  constructor
  · decide
  · decide

/-- Claim C3: any ciphertext shorter than 16 bytes is rejected as an
authentication failure by both secretbox-decrypt and box-decrypt (the
length guard precedes keystream generation in the model). -/
theorem claim_C3_short_ciphertext :
    ∀ ct nonce key pk sk : List Nat, ct.length < 16 →
      (nonce.length = 24 → key.length = 32 →
        crypto_secretbox_open ct nonce key = some none) ∧
      (nonce.length = 24 → pk.length = 32 → sk.length = 32 →
        crypto_box_open ct nonce pk sk = some none) := by
  intro ct nonce key pk sk hshort
  have hopen : ∀ k : List Nat, nonce.length = 24 → k.length = 32 →
      crypto_secretbox_open ct nonce k = some none := by
    intro k h24 h32
    unfold crypto_secretbox_open
    rw [if_pos ⟨h24, h32⟩, if_pos hshort]
  refine ⟨hopen key, fun h24 hpk hsk => ?_⟩
  unfold crypto_box_open
  rw [if_pos h24, crypto_box_beforenm_some pk sk hpk hsk, Option.some_bind]
  exact hopen _ h24 (hsalsa20_length ..)

/-- Claim C3 witness: the empty ciphertext is rejected under the all-zero
key, nonce and keypair. -/
theorem claim_C3_short_ciphertext_witness :
    crypto_secretbox_open [] (List.replicate 24 0) (List.replicate 32 0) = some none ∧
    crypto_box_open [] (List.replicate 24 0) (List.replicate 32 0)
      (List.replicate 32 0) = some none :=
  ⟨(claim_C3_short_ciphertext [] (List.replicate 24 0) (List.replicate 32 0)
      (List.replicate 32 0) (List.replicate 32 0) (by decide)).1 (by decide) (by decide),
   (claim_C3_short_ciphertext [] (List.replicate 24 0) (List.replicate 32 0)
      (List.replicate 32 0) (List.replicate 32 0) (by decide)).2 (by decide) (by decide)
      (by decide)⟩

/-- Claim C4: `crypto_box` is exactly key precomputation composed with
secretbox, and `crypto_box_open` is key precomputation composed with
secretbox-open, for all arguments. -/
theorem claim_C4_composition :
    ∀ msg ct nonce pk sk : List Nat,
      crypto_box msg nonce pk sk = box_encrypt_spec msg nonce pk sk ∧
      crypto_box_open ct nonce pk sk = box_decrypt_spec ct nonce pk sk := by
  intro msg ct nonce pk sk
  unfold crypto_box crypto_box_open box_encrypt_spec box_decrypt_spec
  by_cases h24 : nonce.length = crypto_box_NONCEBYTES
  · rw [if_pos h24, if_pos h24]
    exact ⟨rfl, rfl⟩
  · rw [if_neg h24, if_neg h24]
    by_cases hks : pk.length = crypto_box_PUBLICKEYBYTES ∧ sk.length = crypto_box_SECRETKEYBYTES
    · unfold crypto_box_beforenm
      rw [if_pos hks, Option.some_bind, Option.some_bind]
      unfold crypto_secretbox crypto_secretbox_open
      rw [if_neg (fun hc => h24 hc.1), if_neg (fun hc => h24 hc.1)]
      exact ⟨rfl, rfl⟩
    · unfold crypto_box_beforenm
      rw [if_neg hks]
      exact ⟨rfl, rfl⟩

/-- Claim C5: the precomputed session key is the HSalsa20 compression of
the Curve25519 scalar product `curve25519(sk, pk)` under the fixed all-zero
16-byte nonce, and it is 32 bytes long. -/
theorem claim_C5_beforenm :
    ∀ pk sk : List Nat, pk.length = 32 → sk.length = 32 →
      crypto_box_beforenm pk sk = some (beforenm_spec pk sk) ∧
      (beforenm_spec pk sk).length = 32 := by
  intro pk sk hpk hsk
  exact ⟨crypto_box_beforenm_some pk sk hpk hsk, hsalsa20_length ..⟩

/-- Claim C5 witness: the session-key derivation evaluated on Bob's public
key and Alice's secret key from the NaCl test vectors. -/
theorem claim_C5_beforenm_witness :
    crypto_box_beforenm bobpk alicesk = some (beforenm_spec bobpk alicesk) ∧
    (beforenm_spec bobpk alicesk).length = 32 :=
  claim_C5_beforenm bobpk alicesk (by decide) (by decide)

/-- Claim C7: every ciphertext produced by secretbox-encrypt has length
exactly `len(msg) + 16`; its first 16 bytes are the Poly1305 tag and the
remaining `len(msg)` bytes are the encrypted payload; box-encrypt inherits
the length invariant. -/
theorem claim_C7_layout :
    (∀ msg nonce key ct, crypto_secretbox msg nonce key = some ct →
      ct.length = msg.length + 16 ∧
      ct.take 16 = secretboxTag msg nonce key ∧
      ct.drop 16 = secretboxPayload msg nonce key ∧
      (secretboxTag msg nonce key).length = 16 ∧
      (secretboxPayload msg nonce key).length = msg.length) ∧
    (∀ msg nonce pk sk ct, crypto_box msg nonce pk sk = some ct →
      ct.length = msg.length + 16) := by
  constructor
  · intro msg nonce key ct h
    obtain ⟨h24, h32, hct⟩ := crypto_secretbox_some msg nonce key ct h
    subst hct
    have hT := secretboxTag_length msg nonce key
    have hP := secretboxPayload_length msg nonce key
    refine ⟨by rw [List.length_append, hT, hP]; omega, ?_, ?_, hT, hP⟩
    · rw [← hT]; exact List.take_left ..
    · rw [← hT]; exact List.drop_left ..
  · intro msg nonce pk sk ct h
    obtain ⟨h24, key, hk, hsb⟩ := crypto_box_some msg nonce pk sk ct h
    exact crypto_secretbox_length msg nonce key ct hsb

/-- Claim C7 witness: the length invariant evaluated on the empty message
under the all-zero key and nonce, and on the NaCl box test vectors. -/
theorem claim_C7_layout_witness :
    ([92, 134, 54, 217, 153, 141, 25, 77, 96, 90, 195, 186, 60, 255, 21, 18] :
      List Nat).length = ([] : List Nat).length + 16 ∧
    vec_box_expected.length = vec_msg.length + 16 :=
  ⟨(claim_C7_layout.1 [] (List.replicate 24 0) (List.replicate 32 0)
      [92, 134, 54, 217, 153, 141, 25, 77, 96, 90, 195, 186, 60, 255, 21, 18]
      (by decide)).1,
   claim_C7_layout.2 vec_msg vec_nonce bobpk alicesk vec_box_expected (by decide)⟩

/-- Claim C8: wrong fixed-length inputs abort — `crypto_box_keypair` aborts
exactly when the secret-key buffer is not 32 bytes, `crypto_box_beforenm`
exactly when either key is not 32 bytes, and `crypto_box`/`crypto_box_open`
whenever the nonce is not 24 bytes; under correct sizes no assertion
fires. -/
theorem claim_C8_asserts :
    (∀ entropy sk : List Nat, crypto_box_keypair entropy sk = none ↔ sk.length ≠ 32) ∧
    (∀ pk sk : List Nat,
      crypto_box_beforenm pk sk = none ↔ ¬(pk.length = 32 ∧ sk.length = 32)) ∧
    (∀ msg nonce pk sk : List Nat, nonce.length ≠ 24 →
      crypto_box msg nonce pk sk = none) ∧
    (∀ msg nonce pk sk : List Nat, nonce.length = 24 → pk.length = 32 →
      sk.length = 32 → (crypto_box msg nonce pk sk).isSome) ∧
    (∀ ct nonce pk sk : List Nat, nonce.length ≠ 24 →
      crypto_box_open ct nonce pk sk = none) ∧
    (∀ ct nonce pk sk : List Nat, nonce.length = 24 → pk.length = 32 →
      sk.length = 32 → (crypto_box_open ct nonce pk sk).isSome) := by
  refine ⟨?_, ?_, ?_, ?_, ?_, ?_⟩
  · intro entropy sk
    unfold crypto_box_keypair
    by_cases hsk : sk.length = 32
    · rw [if_pos hsk]; simp [hsk]
    · rw [if_neg hsk]; simp [hsk]
  · intro pk sk
    unfold crypto_box_beforenm
    by_cases hks : pk.length = 32 ∧ sk.length = 32
    · rw [if_pos hks]; simp [hks]
    · rw [if_neg hks]; simp [hks]
  · intro msg nonce pk sk h24
    unfold crypto_box
    exact if_neg h24
  · intro msg nonce pk sk h24 hpk hsk
    unfold crypto_box
    rw [if_pos h24, crypto_box_beforenm_some pk sk hpk hsk, Option.some_bind]
    unfold crypto_secretbox
    rw [if_pos ⟨h24, hsalsa20_length ..⟩]
    rfl
  · intro ct nonce pk sk h24
    unfold crypto_box_open
    exact if_neg h24
  · intro ct nonce pk sk h24 hpk hsk
    unfold crypto_box_open
    rw [if_pos h24, crypto_box_beforenm_some pk sk hpk hsk, Option.some_bind]
    exact secretbox_open_isSome ct nonce _ h24 (hsalsa20_length ..)

/-- Claim C8 witness: a 23-byte nonce aborts `crypto_box` and
`crypto_box_open`; with a 24-byte nonce and 32-byte keys both succeed. -/
theorem claim_C8_asserts_witness :
    crypto_box [] (List.replicate 23 0) (List.replicate 32 0) (List.replicate 32 0) = none ∧
    (crypto_box [] (List.replicate 24 0) (List.replicate 32 0) (List.replicate 32 0)).isSome ∧
    crypto_box_open [] (List.replicate 23 0) (List.replicate 32 0) (List.replicate 32 0) = none ∧
    (crypto_box_open [] (List.replicate 24 0) (List.replicate 32 0) (List.replicate 32 0)).isSome :=
  ⟨claim_C8_asserts.2.2.1 [] (List.replicate 23 0) (List.replicate 32 0)
      (List.replicate 32 0) (by decide),
   claim_C8_asserts.2.2.2.1 [] (List.replicate 24 0) (List.replicate 32 0)
      (List.replicate 32 0) (by decide) (by decide) (by decide),
   claim_C8_asserts.2.2.2.2.1 [] (List.replicate 23 0) (List.replicate 32 0)
      (List.replicate 32 0) (by decide),
   claim_C8_asserts.2.2.2.2.2 [] (List.replicate 24 0) (List.replicate 32 0)
      (List.replicate 32 0) (by decide) (by decide) (by decide)⟩

/-- Claim C10: whenever `crypto_box_keypair` succeeds, the secret-key
buffer ends up holding the SHA-512/256 digest of the random bytes drawn
(not the raw entropy), and the returned public key is the base-point
multiple of exactly those final buffer contents. -/
theorem claim_C10_keypair :
    ∀ entropy sk sk2 pk : List Nat,
      crypto_box_keypair entropy sk = some (sk2, pk) →
      sk2 = sha512_256 (entropy.take 32) ∧ pk = curve25519_base sk2 := by
  intro entropy sk sk2 pk h
  unfold crypto_box_keypair at h
  by_cases hsk : sk.length = 32
  · rw [if_pos hsk] at h
    have h' := Option.some.inj h
    injection h' with h1 h2
    exact ⟨h1.symm, by rw [← h2, ← h1]⟩
  · rw [if_neg hsk] at h
    exact absurd h (by simp)

/-- Claim C10 witness: keypair generation evaluated on the entropy bytes
`0, 1, ..., 31` — the stored secret key is their SHA-512/256 digest and
the public key is its base-point multiple. -/
theorem claim_C10_keypair_witness :
    ([177, 145, 94, 174, 132, 177, 38, 22, 206, 81, 215, 226, 89, 183, 174, 195,
      121, 141, 66, 122, 115, 91, 177, 50, 38, 208, 113, 25, 246, 81, 233, 129] :
      List Nat) = sha512_256 ((List.range 32).take 32) ∧
    ([209, 66, 68, 62, 6, 153, 215, 198, 128, 239, 145, 124, 166, 15, 204, 94,
      194, 193, 114, 79, 23, 17, 253, 22, 88, 127, 46, 98, 3, 249, 19, 64] :
      List Nat) = curve25519_base
      [177, 145, 94, 174, 132, 177, 38, 22, 206, 81, 215, 226, 89, 183, 174, 195,
       121, 141, 66, 122, 115, 91, 177, 50, 38, 208, 113, 25, 246, 81, 233, 129] :=
  claim_C10_keypair (List.range 32) (List.replicate 32 0)
    [177, 145, 94, 174, 132, 177, 38, 22, 206, 81, 215, 226, 89, 183, 174, 195,
     121, 141, 66, 122, 115, 91, 177, 50, 38, 208, 113, 25, 246, 81, 233, 129]
    [209, 66, 68, 62, 6, 153, 215, 198, 128, 239, 145, 124, 166, 15, 204, 94,
     194, 193, 114, 79, 23, 17, 253, 22, 88, 127, 46, 98, 3, 249, 19, 64]
    (by decide)
